import Mathlib

/-!
Shallow embedding of the Detik data source (`src/lib/detik.js`): the
poll orchestrator, page fetcher, result filter and item forwarder, together
with the watermark (`_lastContributionId` / `_highestBatchContributionId`)
state machine.  JavaScript numbers are modelled as `Int` (all values the
claims exercise are integral); callback-based control flow is modelled as
explicit state passing, and the destructive `Array.prototype.shift` loop of
`_filterResults` is modelled by returning the remaining list alongside the
other outputs.  A possibly-falsy array entry is an `Option DetikResult`
(`none` is a falsy entry such as `null`).
-/

namespace Detik

/-- Configuration consumed by the data source: the retention window
`HISTORICAL_LOAD_PERIOD` in milliseconds (`config.HISTORICAL_LOAD_PERIOD`). -/
structure Config where
  HISTORICAL_LOAD_PERIOD : Int
deriving Repr, DecidableEq

/-- One feed `result` object, with the fields `detik.js` reads:
`contributionId`, `date.update.sec`, `date.create.sec`,
`location.geospatial.longitude` / `latitude`, and the free-form payload
fields touched by `_insertConfirmed`. -/
structure DetikResult where
  contributionId : Int
  updateSec : Int
  createSec : Int
  longitude : Int
  latitude : Int
  url : String
  title : String
  content : String
  photo : Option String
  userId : String
deriving Repr, DecidableEq

/-- The instance-scoped mutable state of `DetikDataSource`:
`_lastContributionId` (the committed watermark) and
`_highestBatchContributionId` (the batch-in-progress counter). -/
structure DetikState where
  lastContributionId : Int
  highestBatchContributionId : Int
deriving Repr, DecidableEq

/-- `_updateLastContributionIdFromBatch`: commit the batch counter into the
watermark when it is larger (`if (lastContributionId <
highestBatchContributionId) lastContributionId :=
highestBatchContributionId`). -/
def updateLastContributionIdFromBatch (st : DetikState) : DetikState :=
  if st.lastContributionId < st.highestBatchContributionId then
    { st with lastContributionId := st.highestBatchContributionId }
  else st

/-- The age ("too old") test of `_filterResults`:
`result.date.update.sec * 1000 < now - config.HISTORICAL_LOAD_PERIOD`,
where `now` is `new Date().getTime()` in milliseconds. -/
def resultStale (cfg : Config) (now : Int) (r : DetikResult) : Prop :=
  r.updateSec * 1000 < now - cfg.HISTORICAL_LOAD_PERIOD

instance (cfg : Config) (now : Int) (r : DetikResult) :
    Decidable (resultStale cfg now r) := by
  unfold resultStale; infer_instance

/-- An item the `while` loop of `_filterResults` accepts (falls through to
`_processResult`): it passes the seen-before check and the age check. -/
def accepted (cfg : Config) (now : Int) (last : Int) (r : DetikResult) : Prop :=
  last < r.contributionId ∧ ¬ resultStale cfg now r

instance (cfg : Config) (now : Int) (last : Int) (r : DetikResult) :
    Decidable (accepted cfg now last r) := by
  unfold accepted; infer_instance

/-- Everything one call of `_filterResults` leaves behind: the final value
of `_highestBatchContributionId`, the entries still in the caller's array
(`results.shift()` removes each examined entry), the results handed to
`_processResult` in order, and the `continueProcessing` return flag. -/
structure FilterOutput where
  highest : Int
  remaining : List (Option DetikResult)
  processed : List DetikResult
  continueProcessing : Bool
deriving Repr, DecidableEq

/-- The `while ( result )` loop of `_filterResults`, parameterised by the
watermark `last` read inside the loop and the running
`_highestBatchContributionId`.  A `none` entry is a falsy array element:
`shift` removes it and the loop condition ends the scan. -/
def filterLoop (cfg : Config) (now : Int) (last : Int) :
    Int → List (Option DetikResult) → FilterOutput
  | highest, [] => ⟨highest, [], [], true⟩
  | highest, none :: rest => ⟨highest, rest, [], true⟩
  | highest, some r :: rest =>
    if r.contributionId ≤ last then
      ⟨highest, rest, [], false⟩
    else if resultStale cfg now r then
      ⟨highest, rest, [], false⟩
    else
      let highest' := if highest < r.contributionId then r.contributionId
        else highest
      let out := filterLoop cfg now last highest' rest
      ⟨out.highest, out.remaining, r :: out.processed, out.continueProcessing⟩

/-- Output of `_filterResults` at the state level. -/
structure FilterResultsOutput where
  state : DetikState
  remaining : List (Option DetikResult)
  processed : List DetikResult
  continueProcessing : Bool
deriving Repr, DecidableEq

/-- `_filterResults`: run the loop against `_lastContributionId`, store the
new `_highestBatchContributionId`, and when the loop broke out
(`continueProcessing = false`) call `_updateLastContributionIdFromBatch`
before returning the flag. -/
def filterResults (cfg : Config) (now : Int) (st : DetikState)
    (results : List (Option DetikResult)) : FilterResultsOutput :=
  let out := filterLoop cfg now st.lastContributionId
    st.highestBatchContributionId results
  let st1 : DetikState :=
    { st with highestBatchContributionId := out.highest }
  let st2 := if out.continueProcessing then st1
    else updateLastContributionIdFromBatch st1
  ⟨st2, out.remaining, out.processed, out.continueProcessing⟩

/-- `_saveResult`: hand the result to `_insertConfirmed` exactly when both
coordinates differ from zero (`longitude !== 0 && latitude !== 0`);
otherwise drop it silently.  The returned value is the result forwarded to
the sink, `none` when it was dropped. -/
def saveResult (r : DetikResult) : Option DetikResult :=
  if r.longitude ≠ 0 ∧ r.latitude ≠ 0 then some r else none

/-- `_processResult` simply delegates to `_saveResult`. -/
def processResult (r : DetikResult) : Option DetikResult :=
  saveResult r

/-- What one HTTPS fetch of a page amounts to, as seen by the `res`/`req`
callbacks of `_fetchResults`: a transport error (`req.on('error')`), a body
`JSON.parse` rejects, a parsed body with a missing or empty `result` array,
or a page of result entries. -/
inductive FetchOutcome where
  | fetchError
  | parseError
  | noResults
  | results (items : List (Option DetikResult))
deriving Repr, DecidableEq

/-- The observable outcome of a run of `_fetchResults`: the final instance
state, the page numbers fetched in order, and every result handed to
`_processResult` over the whole run. -/
structure RunOutput where
  state : DetikState
  fetchedPages : List Nat
  processed : List DetikResult
deriving Repr, DecidableEq

/-- `_fetchResults`, recursing from page `page` with `pages` giving each
page's fetch outcome.  A transport error, a parse error and a missing or
empty result list each call `_updateLastContributionIdFromBatch` and
return without fetching further; a page of results goes through
`_filterResults`, and only a `true` flag fetches `page + 1`.  `fuel`
bounds the recursion depth of the model; running out of fuel leaves the
state as is (the JavaScript recursion is unbounded). -/
def fetchResults (cfg : Config) (now : Int) (pages : Nat → FetchOutcome) :
    Nat → Nat → DetikState → RunOutput
  | 0, _, st => ⟨st, [], []⟩
  | fuel + 1, page, st =>
    match pages page with
    | .fetchError => ⟨updateLastContributionIdFromBatch st, [page], []⟩
    | .parseError => ⟨updateLastContributionIdFromBatch st, [page], []⟩
    | .noResults => ⟨updateLastContributionIdFromBatch st, [page], []⟩
    | .results items =>
      let out := filterResults cfg now st items
      if out.continueProcessing then
        let rest := fetchResults cfg now pages fuel (page + 1) out.state
        ⟨rest.state, page :: rest.fetchedPages, out.processed ++ rest.processed⟩
      else
        ⟨out.state, [page], out.processed⟩

/-- `_poll`: set `_highestBatchContributionId := _lastContributionId`, then
process results from page 1. -/
def poll (cfg : Config) (now : Int) (pages : Nat → FetchOutcome) (fuel : Nat)
    (st : DetikState) : RunOutput :=
  fetchResults cfg now pages fuel 1
    { st with highestBatchContributionId := st.lastContributionId }

/-- The `if (highest < id) highest := id` update of `_filterResults`,
folded over a list of accepted results. -/
def batchMax (h : Int) (l : List DetikResult) : Int :=
  l.foldl (fun a r => if a < r.contributionId then r.contributionId else a) h

/-- A sequence of scheduled invocations of `_poll`, one entry per cycle:
the configuration, clock value, feed pages and recursion-depth bound of
that cycle.  The scheduler serialises cycles, so the state threads
through. -/
def runCycles :
    DetikState → List (Config × Int × (Nat → FetchOutcome) × Nat) → DetikState
  | st, [] => st
  | st, (cfg, now, pages, fuel) :: rest =>
    runCycles (poll cfg now pages fuel st).state rest

/-- The watermark after one `_filterResults` run started from watermark `L`
(with the batch counter initialised to `L`, as `_poll` does) followed by a
batch commit. -/
def commitAfter (cfg : Config) (now L : Int)
    (results : List (Option DetikResult)) : Int :=
  (updateLastContributionIdFromBatch
    (filterResults cfg now ⟨L, L⟩ results).state).lastContributionId

/-- A result with the given contribution id, update time and coordinates,
used to instantiate the theorems at concrete inputs. -/
def sampleResult (id ts lon lat : Int) : DetikResult :=
  ⟨id, ts, 0, lon, lat, "", "", "", none, ""⟩

end Detik

namespace Detik

theorem updateLast_last (st : DetikState) :
    (updateLastContributionIdFromBatch st).lastContributionId =
      max st.lastContributionId st.highestBatchContributionId := by
  unfold updateLastContributionIdFromBatch
  split <;> simp <;> omega

theorem updateLast_highest (st : DetikState) :
    (updateLastContributionIdFromBatch st).highestBatchContributionId =
      st.highestBatchContributionId := by
  unfold updateLastContributionIdFromBatch
  split <;> rfl

theorem filterLoop_append_accepted (cfg : Config) (now last : Int)
    (l1 : List DetikResult) (rest : List (Option DetikResult)) (h : Int)
    (hacc : ∀ r ∈ l1, accepted cfg now last r) :
    filterLoop cfg now last h (l1.map some ++ rest) =
      { filterLoop cfg now last (batchMax h l1) rest with
        processed :=
          l1 ++ (filterLoop cfg now last (batchMax h l1) rest).processed } := by
  induction l1 generalizing h with
  | nil => simp [batchMax]
  | cons r l1 ih =>
    have hr : accepted cfg now last r := hacc r (by simp)
    have h1 : ¬ r.contributionId ≤ last := not_le.mpr hr.1
    have h2 : ¬ resultStale cfg now r := hr.2
    have hrest : ∀ x ∈ l1, accepted cfg now last x := by
      intro x hx; exact hacc x (by simp [hx])
    simp only [List.map_cons, List.cons_append, filterLoop, if_neg h1, if_neg h2,
      List.append_eq]
    rw [ih _ hrest]
    simp [batchMax]

theorem filterLoop_highest_le (cfg : Config) (now last : Int)
    (l : List (Option DetikResult)) (h : Int) :
    h ≤ (filterLoop cfg now last h l).highest := by
  induction l generalizing h with
  | nil => simp [filterLoop]
  | cons o l ih =>
    match o with
    | none => simp [filterLoop]
    | some r =>
      by_cases h1 : r.contributionId ≤ last
      · simp [filterLoop, if_pos h1]
      · by_cases h2 : resultStale cfg now r
        · simp [filterLoop, if_neg h1, if_pos h2]
        · simp only [filterLoop, if_neg h1, if_neg h2]
          refine le_trans ?_ (ih (if h < r.contributionId then r.contributionId else h))
          split <;> omega

theorem filterLoop_highest_eq (cfg : Config) (now last : Int)
    (l : List (Option DetikResult)) (h : Int) :
    (filterLoop cfg now last h l).highest =
      batchMax h (filterLoop cfg now last h l).processed := by
  induction l generalizing h with
  | nil => simp [filterLoop, batchMax]
  | cons o l ih =>
    match o with
    | none => simp [filterLoop, batchMax]
    | some r =>
      by_cases h1 : r.contributionId ≤ last
      · simp [filterLoop, if_pos h1, batchMax]
      · by_cases h2 : resultStale cfg now r
        · simp [filterLoop, if_neg h1, if_pos h2, batchMax]
        · simp only [filterLoop, if_neg h1, if_neg h2]
          rw [ih]
          simp [batchMax]

end Detik
namespace Detik

theorem filterLoop_stop (cfg : Config) (now last h : Int) (r : DetikResult)
    (rest : List (Option DetikResult))
    (hstop : r.contributionId ≤ last ∨ resultStale cfg now r) :
    filterLoop cfg now last h (some r :: rest) = ⟨h, rest, [], false⟩ := by
  by_cases h1 : r.contributionId ≤ last
  · simp [filterLoop, if_pos h1]
  · have h2 : resultStale cfg now r := hstop.resolve_left h1
    simp [filterLoop, if_neg h1, if_pos h2]

theorem filterResults_stop_at (cfg : Config) (now : Int) (st : DetikState)
    (l1 : List DetikResult) (r : DetikResult) (l2 : List (Option DetikResult))
    (hacc : ∀ x ∈ l1, accepted cfg now st.lastContributionId x)
    (hstop : r.contributionId ≤ st.lastContributionId ∨ resultStale cfg now r) :
    filterResults cfg now st (l1.map some ++ some r :: l2) =
      ⟨updateLastContributionIdFromBatch
          { st with highestBatchContributionId :=
              batchMax st.highestBatchContributionId l1 },
        l2, l1, false⟩ := by
  unfold filterResults
  rw [filterLoop_append_accepted cfg now st.lastContributionId l1
    (some r :: l2) st.highestBatchContributionId hacc]
  rw [filterLoop_stop cfg now st.lastContributionId
    (batchMax st.highestBatchContributionId l1) r l2 hstop]
  simp

theorem filterResults_all_accepted (cfg : Config) (now : Int) (st : DetikState)
    (l : List DetikResult)
    (hacc : ∀ r ∈ l, accepted cfg now st.lastContributionId r) :
    filterResults cfg now st (l.map some) =
      ⟨{ st with highestBatchContributionId :=
          batchMax st.highestBatchContributionId l },
        [], l, true⟩ := by
  unfold filterResults
  have h0 := filterLoop_append_accepted cfg now st.lastContributionId l []
    st.highestBatchContributionId hacc
  rw [List.append_nil] at h0
  rw [h0]
  simp [filterLoop]

theorem filterResults_falsy (cfg : Config) (now : Int) (st : DetikState)
    (l1 : List DetikResult) (l2 : List (Option DetikResult))
    (hacc : ∀ r ∈ l1, accepted cfg now st.lastContributionId r) :
    filterResults cfg now st (l1.map some ++ none :: l2) =
      ⟨{ st with highestBatchContributionId :=
          batchMax st.highestBatchContributionId l1 },
        l2, l1, true⟩ := by
  unfold filterResults
  rw [filterLoop_append_accepted cfg now st.lastContributionId l1
    (none :: l2) st.highestBatchContributionId hacc]
  simp [filterLoop]

theorem filterResults_last_le (cfg : Config) (now : Int) (st : DetikState)
    (l : List (Option DetikResult)) :
    st.lastContributionId ≤
      (filterResults cfg now st l).state.lastContributionId := by
  unfold filterResults
  simp only
  split
  · simp
  · rw [updateLast_last]
    simp

theorem filterResults_state_highest (cfg : Config) (now : Int) (st : DetikState)
    (l : List (Option DetikResult)) :
    (filterResults cfg now st l).state.highestBatchContributionId =
      (filterLoop cfg now st.lastContributionId
        st.highestBatchContributionId l).highest := by
  unfold filterResults
  simp only
  split
  · rfl
  · rw [updateLast_highest]

theorem filterResults_nil_inv (cfg : Config) (now : Int) (st : DetikState)
    (l : List (Option DetikResult))
    (hinv : st.highestBatchContributionId = st.lastContributionId)
    (hnil : (filterResults cfg now st l).processed = []) :
    (filterResults cfg now st l).state = st := by
  have hh : (filterLoop cfg now st.lastContributionId
      st.highestBatchContributionId l).highest =
      st.highestBatchContributionId := by
    have h0 := filterLoop_highest_eq cfg now st.lastContributionId l
      st.highestBatchContributionId
    have h1 : (filterLoop cfg now st.lastContributionId
        st.highestBatchContributionId l).processed = [] := hnil
    rw [h1] at h0
    simpa [batchMax] using h0
  unfold filterResults
  simp only [hh]
  split
  · rfl
  · show updateLastContributionIdFromBatch st = st
    unfold updateLastContributionIdFromBatch
    rw [if_neg (by omega)]

end Detik
namespace Detik

theorem fetchResults_last_le (cfg : Config) (now : Int)
    (pages : Nat → FetchOutcome) :
    ∀ (fuel page : Nat) (st : DetikState),
    st.lastContributionId ≤
      (fetchResults cfg now pages fuel page st).state.lastContributionId := by
  intro fuel
  induction fuel with
  | zero => intro page st; simp [fetchResults]
  | succ fuel ih =>
    intro page st
    rcases hp : pages page with _ | _ | _ | items
    · simp [fetchResults, hp, updateLast_last]
    · simp [fetchResults, hp, updateLast_last]
    · simp [fetchResults, hp, updateLast_last]
    · simp only [fetchResults, hp]
      split
      · exact le_trans (filterResults_last_le cfg now st items) (ih _ _)
      · exact filterResults_last_le cfg now st items

theorem fetchResults_processed_nil (cfg : Config) (now : Int)
    (pages : Nat → FetchOutcome) :
    ∀ (fuel page : Nat) (st : DetikState),
    st.highestBatchContributionId = st.lastContributionId →
    (fetchResults cfg now pages fuel page st).processed = [] →
    (fetchResults cfg now pages fuel page st).state.lastContributionId =
      st.lastContributionId := by
  intro fuel
  induction fuel with
  | zero => intro page st hinv hnil; simp [fetchResults]
  | succ fuel ih =>
    intro page st hinv hnil
    rcases hp : pages page with _ | _ | _ | items
    · rw [fetchResults]; simp only [hp, updateLast_last]; omega
    · rw [fetchResults]; simp only [hp, updateLast_last]; omega
    · rw [fetchResults]; simp only [hp, updateLast_last]; omega
    · by_cases hc :
        (filterResults cfg now st items).continueProcessing = true
      · rw [fetchResults] at hnil ⊢
        simp only [hp, hc, if_true] at hnil ⊢
        rcases List.append_eq_nil.mp hnil with ⟨h1, h2⟩
        have hst := filterResults_nil_inv cfg now st items hinv h1
        rw [hst] at h2 ⊢
        exact ih (page + 1) st hinv h2
      · rw [fetchResults] at hnil ⊢
        simp only [hp, hc, Bool.false_eq_true, if_false] at hnil ⊢
        have hst := filterResults_nil_inv cfg now st items hinv hnil
        rw [hst]

theorem poll_last_le (cfg : Config) (now : Int) (pages : Nat → FetchOutcome)
    (fuel : Nat) (st : DetikState) :
    st.lastContributionId ≤ (poll cfg now pages fuel st).state.lastContributionId :=
  fetchResults_last_le cfg now pages fuel 1
    { st with highestBatchContributionId := st.lastContributionId }

theorem runCycles_last_le (st : DetikState)
    (cs : List (Config × Int × (Nat → FetchOutcome) × Nat)) :
    st.lastContributionId ≤ (runCycles st cs).lastContributionId := by
  induction cs generalizing st with
  | nil => simp [runCycles]
  | cons c rest ih =>
    obtain ⟨cfg, now, pages, fuel⟩ := c
    exact le_trans (poll_last_le cfg now pages fuel st)
      (ih (poll cfg now pages fuel st).state)

end Detik
namespace Detik

theorem filterResults_processed (cfg : Config) (now : Int) (st : DetikState)
    (l : List (Option DetikResult)) :
    (filterResults cfg now st l).processed =
      (filterLoop cfg now st.lastContributionId
        st.highestBatchContributionId l).processed := rfl

theorem filterResults_state_last (cfg : Config) (now : Int) (st : DetikState)
    (l : List (Option DetikResult)) :
    (filterResults cfg now st l).state.lastContributionId =
      if (filterLoop cfg now st.lastContributionId
          st.highestBatchContributionId l).continueProcessing then
        st.lastContributionId
      else
        max st.lastContributionId
          (filterLoop cfg now st.lastContributionId
            st.highestBatchContributionId l).highest := by
  unfold filterResults
  simp only
  split
  · rfl
  · exact updateLast_last _

theorem filterResults_head_stop (cfg : Config) (now : Int) (st : DetikState)
    (r : DetikResult) (rest : List (Option DetikResult))
    (hstop : r.contributionId ≤ st.lastContributionId ∨
      resultStale cfg now r) :
    (filterResults cfg now st (some r :: rest)).processed = [] := by
  have h0 := filterResults_stop_at cfg now st [] r rest (by simp) hstop
  simp only [List.map_nil, List.nil_append] at h0
  rw [h0]

theorem fetchResults_head (cfg : Config) (now : Int)
    (pages : Nat → FetchOutcome) (fuel page : Nat) (st : DetikState) :
    (fetchResults cfg now pages (fuel + 1) page st).fetchedPages.head? =
      some page := by
  rw [fetchResults]
  rcases hp : pages page with _ | _ | _ | items <;> simp only [hp]
  · rfl
  · rfl
  · rfl
  · split <;> rfl

/-- C1: on a page the seen-before check comes first and stops the scan: if
an item has `contributionId` at most the watermark, no matter its age, the
items before it are the only ones processed, nothing after it is examined,
and `_filterResults` returns `false`. -/
theorem seen_check_stops_page (cfg : Config) (now : Int) (st : DetikState)
    (l1 : List DetikResult) (r : DetikResult) (l2 : List (Option DetikResult))
    (hacc : ∀ x ∈ l1, accepted cfg now st.lastContributionId x)
    (hseen : r.contributionId ≤ st.lastContributionId) :
    (filterResults cfg now st
      (l1.map some ++ some r :: l2)).continueProcessing = false ∧
    (filterResults cfg now st (l1.map some ++ some r :: l2)).processed = l1 ∧
    (filterResults cfg now st (l1.map some ++ some r :: l2)).remaining = l2 := by
  rw [filterResults_stop_at cfg now st l1 r l2 hacc (Or.inl hseen)]
  exact ⟨rfl, rfl, rfl⟩

/-- C1 witness at a concrete page: the stopping item is both already seen
and stale, and the seen-before stop still fires. -/
theorem seen_check_stops_page_witness :
    (∀ x ∈ [sampleResult 12 4999 1 1],
      accepted ⟨3600000⟩ 5000000 (10 : Int) x) ∧
    (sampleResult 7 0 1 1).contributionId ≤ (10 : Int) ∧
    ((filterResults ⟨3600000⟩ 5000000 ⟨10, 10⟩
      ([sampleResult 12 4999 1 1].map some ++
        some (sampleResult 7 0 1 1) ::
          [some (sampleResult 3 0 1 1)])).continueProcessing = false ∧
     (filterResults ⟨3600000⟩ 5000000 ⟨10, 10⟩
      ([sampleResult 12 4999 1 1].map some ++
        some (sampleResult 7 0 1 1) ::
          [some (sampleResult 3 0 1 1)])).processed =
        [sampleResult 12 4999 1 1] ∧
     (filterResults ⟨3600000⟩ 5000000 ⟨10, 10⟩
      ([sampleResult 12 4999 1 1].map some ++
        some (sampleResult 7 0 1 1) ::
          [some (sampleResult 3 0 1 1)])).remaining =
        [some (sampleResult 3 0 1 1)]) :=
  ⟨by decide, by decide,
    seen_check_stops_page ⟨3600000⟩ 5000000 ⟨10, 10⟩
      [sampleResult 12 4999 1 1] (sampleResult 7 0 1 1)
      [some (sampleResult 3 0 1 1)] (by decide) (by decide)⟩

end Detik
namespace Detik

/-- C4 counterexample: with `HISTORICAL_LOAD_PERIOD = 0` it is not true
that every item is rejected by the age check: the comparison is strict, so
an item whose `updateTimestamp * 1000` equals `now` (here `2000 * 1000 =
2000000`) passes the age check, is processed, and the page continues. -/
theorem age_check_zero_period_cex :
    (filterResults ⟨0⟩ 2000000 ⟨0, 0⟩
      [some (sampleResult 5 2000 1 1)]).processed =
      [sampleResult 5 2000 1 1] ∧
    (filterResults ⟨0⟩ 2000000 ⟨0, 0⟩
      [some (sampleResult 5 2000 1 1)]).continueProcessing = true := by
  decide

/-- C4 (amended): an item that passes the seen-before check and has
`updateTimestamp * 1000 < now - HISTORICAL_LOAD_PERIOD` stops filtering at
that item with `continueFlag = false`; with `HISTORICAL_LOAD_PERIOD = 0`
every item whose `updateTimestamp * 1000` is strictly below `now` is
rejected by the age check. -/
theorem age_check_stops_page (cfg : Config) (now : Int) (st : DetikState)
    (l1 : List DetikResult) (r : DetikResult) (l2 : List (Option DetikResult))
    (hacc : ∀ x ∈ l1, accepted cfg now st.lastContributionId x)
    (hid : st.lastContributionId < r.contributionId)
    (hold : r.updateSec * 1000 < now - cfg.HISTORICAL_LOAD_PERIOD) :
    ((filterResults cfg now st
        (l1.map some ++ some r :: l2)).continueProcessing = false ∧
     (filterResults cfg now st (l1.map some ++ some r :: l2)).processed = l1 ∧
     (filterResults cfg now st (l1.map some ++ some r :: l2)).remaining = l2) ∧
    (∀ r2 : DetikResult, st.lastContributionId < r2.contributionId →
      r2.updateSec * 1000 < now →
      (filterResults (⟨0⟩ : Config) now st
        [some r2]).continueProcessing = false ∧
      (filterResults (⟨0⟩ : Config) now st [some r2]).processed = []) := by
  constructor
  · rw [filterResults_stop_at cfg now st l1 r l2 hacc (Or.inr hold)]
    exact ⟨rfl, rfl, rfl⟩
  · intro r2 hid2 hold2
    have hstale : resultStale ⟨0⟩ now r2 := by
      show r2.updateSec * 1000 < now - (0 : Int)
      omega
    have h0 := filterResults_stop_at (⟨0⟩ : Config) now st [] r2 []
      (by simp) (Or.inr hstale)
    simp only [List.map_nil, List.nil_append] at h0
    rw [h0]
    exact ⟨rfl, rfl⟩

/-- C4 witness at a concrete page: one fresh item is accepted, then a stale
item stops the scan; the `HISTORICAL_LOAD_PERIOD = 0` conjunct is applied
to an item one millisecond-unit older than `now`. -/
theorem age_check_stops_page_witness :
    (∀ x ∈ [sampleResult 12 4999 1 1],
      accepted ⟨3600000⟩ 5000000 (10 : Int) x) ∧
    (10 : Int) < (sampleResult 11 1 1 1).contributionId ∧
    (sampleResult 11 1 1 1).updateSec * 1000 <
      5000000 - (3600000 : Int) ∧
    (((filterResults ⟨3600000⟩ 5000000 ⟨10, 10⟩
        ([sampleResult 12 4999 1 1].map some ++
          some (sampleResult 11 1 1 1) :: [])).continueProcessing = false ∧
      (filterResults ⟨3600000⟩ 5000000 ⟨10, 10⟩
        ([sampleResult 12 4999 1 1].map some ++
          some (sampleResult 11 1 1 1) :: [])).processed =
        [sampleResult 12 4999 1 1] ∧
      (filterResults ⟨3600000⟩ 5000000 ⟨10, 10⟩
        ([sampleResult 12 4999 1 1].map some ++
          some (sampleResult 11 1 1 1) :: [])).remaining = []) ∧
     (∀ r2 : DetikResult, (10 : Int) < r2.contributionId →
      r2.updateSec * 1000 < 5000000 →
      (filterResults (⟨0⟩ : Config) 5000000 ⟨10, 10⟩
        [some r2]).continueProcessing = false ∧
      (filterResults (⟨0⟩ : Config) 5000000 ⟨10, 10⟩
        [some r2]).processed = [])) :=
  ⟨by decide, by decide, by decide,
    age_check_stops_page ⟨3600000⟩ 5000000 ⟨10, 10⟩
      [sampleResult 12 4999 1 1] (sampleResult 11 1 1 1) []
      (by decide) (by decide) (by decide)⟩

end Detik
namespace Detik

/-- C5: a page whose items are all accepted makes `_filterResults` return
`true` with the whole page processed, and `_fetchResults` then recurses to
page `N + 1` from the state the filter decision produced — page `N + 1`
is requested only once page `N` has been filtered, and it is the next page
fetched. -/
theorem accepted_page_continues_next (cfg : Config) (now : Int)
    (pages : Nat → FetchOutcome) (fuel n : Nat) (st : DetikState)
    (l : List DetikResult)
    (hp : pages n = .results (l.map some))
    (hacc : ∀ r ∈ l, accepted cfg now st.lastContributionId r) :
    (filterResults cfg now st (l.map some)).continueProcessing = true ∧
    (filterResults cfg now st (l.map some)).processed = l ∧
    (fetchResults cfg now pages (fuel + 1) n st).fetchedPages =
      n :: (fetchResults cfg now pages fuel (n + 1)
        (filterResults cfg now st (l.map some)).state).fetchedPages ∧
    (fetchResults cfg now pages (fuel + 2) n st).fetchedPages.tail.head? =
      some (n + 1) := by
  have hall := filterResults_all_accepted cfg now st l hacc
  have hcont : (filterResults cfg now st (l.map some)).continueProcessing
      = true := by rw [hall]
  refine ⟨hcont, by rw [hall], ?_, ?_⟩
  · rw [fetchResults]
    simp only [hp, hcont, if_true]
  · rw [fetchResults]
    simp only [hp, hcont, if_true]
    simp only [List.tail_cons]
    exact fetchResults_head cfg now pages fuel (n + 1) _

/-- C5 witness: a one-item page at page 1, all accepted, makes the run
fetch page 2 next. -/
theorem accepted_page_continues_next_witness :
    ((fun k => if k = 1 then
        FetchOutcome.results ([sampleResult 5 4999 1 1].map some)
      else FetchOutcome.noResults) 1 =
        FetchOutcome.results ([sampleResult 5 4999 1 1].map some)) ∧
    (∀ r ∈ [sampleResult 5 4999 1 1],
      accepted ⟨3600000⟩ 5000000 (0 : Int) r) ∧
    ((filterResults ⟨3600000⟩ 5000000 ⟨0, 0⟩
        ([sampleResult 5 4999 1 1].map some)).continueProcessing = true ∧
     (filterResults ⟨3600000⟩ 5000000 ⟨0, 0⟩
        ([sampleResult 5 4999 1 1].map some)).processed =
          [sampleResult 5 4999 1 1] ∧
     (fetchResults ⟨3600000⟩ 5000000
        (fun k => if k = 1 then
          FetchOutcome.results ([sampleResult 5 4999 1 1].map some)
        else FetchOutcome.noResults) (1 + 1) 1 ⟨0, 0⟩).fetchedPages =
       1 :: (fetchResults ⟨3600000⟩ 5000000
        (fun k => if k = 1 then
          FetchOutcome.results ([sampleResult 5 4999 1 1].map some)
        else FetchOutcome.noResults) 1 (1 + 1)
        (filterResults ⟨3600000⟩ 5000000 ⟨0, 0⟩
          ([sampleResult 5 4999 1 1].map some)).state).fetchedPages ∧
     (fetchResults ⟨3600000⟩ 5000000
        (fun k => if k = 1 then
          FetchOutcome.results ([sampleResult 5 4999 1 1].map some)
        else FetchOutcome.noResults) (1 + 2) 1 ⟨0, 0⟩).fetchedPages.tail.head?
       = some (1 + 1)) :=
  ⟨by decide, by decide,
    accepted_page_continues_next ⟨3600000⟩ 5000000
      (fun k => if k = 1 then
        FetchOutcome.results ([sampleResult 5 4999 1 1].map some)
      else FetchOutcome.noResults) 1 1 ⟨0, 0⟩
      [sampleResult 5 4999 1 1] (by decide) (by decide)⟩

/-- C10: `_filterResults` consumes its input array through `shift`: a page
it exhausts leaves the array empty; a stop (seen-before or stale) leaves
exactly the entries after the stopping item; a falsy entry ends the scan
there, removed, with `continueProcessing = true` and the entries after it
left in the array. -/
theorem filter_consumes_input (cfg : Config) (now : Int) (st : DetikState)
    (l1 : List DetikResult) (r : DetikResult) (l2 : List (Option DetikResult))
    (hacc : ∀ x ∈ l1, accepted cfg now st.lastContributionId x) :
    (filterResults cfg now st (l1.map some)).remaining = [] ∧
    (r.contributionId ≤ st.lastContributionId ∨ resultStale cfg now r →
      (filterResults cfg now st
        (l1.map some ++ some r :: l2)).remaining = l2) ∧
    ((filterResults cfg now st
        (l1.map some ++ none :: l2)).continueProcessing = true ∧
     (filterResults cfg now st (l1.map some ++ none :: l2)).remaining = l2 ∧
     (filterResults cfg now st (l1.map some ++ none :: l2)).processed = l1) := by
  refine ⟨?_, ?_, ?_⟩
  · rw [filterResults_all_accepted cfg now st l1 hacc]
  · intro hstop
    rw [filterResults_stop_at cfg now st l1 r l2 hacc hstop]
  · rw [filterResults_falsy cfg now st l1 l2 hacc]
    exact ⟨rfl, rfl, rfl⟩

/-- C10 witness: one accepted item followed by a stopping item (stop case)
or by a `null` entry (falsy case), with one further entry left behind. -/
theorem filter_consumes_input_witness :
    (∀ x ∈ [sampleResult 12 4999 1 1],
      accepted ⟨3600000⟩ 5000000 (10 : Int) x) ∧
    ((sampleResult 7 0 1 1).contributionId ≤ (10 : Int) ∨
      resultStale ⟨3600000⟩ 5000000 (sampleResult 7 0 1 1)) ∧
    ((filterResults ⟨3600000⟩ 5000000 ⟨10, 10⟩
        ([sampleResult 12 4999 1 1].map some)).remaining = [] ∧
     (filterResults ⟨3600000⟩ 5000000 ⟨10, 10⟩
        ([sampleResult 12 4999 1 1].map some ++
          some (sampleResult 7 0 1 1) ::
            [some (sampleResult 3 4999 1 1)])).remaining =
        [some (sampleResult 3 4999 1 1)] ∧
     ((filterResults ⟨3600000⟩ 5000000 ⟨10, 10⟩
        ([sampleResult 12 4999 1 1].map some ++
          none :: [some (sampleResult 3 4999 1 1)])).continueProcessing
            = true ∧
      (filterResults ⟨3600000⟩ 5000000 ⟨10, 10⟩
        ([sampleResult 12 4999 1 1].map some ++
          none :: [some (sampleResult 3 4999 1 1)])).remaining =
        [some (sampleResult 3 4999 1 1)] ∧
      (filterResults ⟨3600000⟩ 5000000 ⟨10, 10⟩
        ([sampleResult 12 4999 1 1].map some ++
          none :: [some (sampleResult 3 4999 1 1)])).processed =
        [sampleResult 12 4999 1 1])) := by
  have h := filter_consumes_input ⟨3600000⟩ 5000000 ⟨10, 10⟩
    [sampleResult 12 4999 1 1] (sampleResult 7 0 1 1)
    [some (sampleResult 3 4999 1 1)] (by decide)
  exact ⟨by decide, Or.inl (by decide),
    h.1, h.2.1 (Or.inl (by decide)), h.2.2⟩

end Detik
namespace Detik

/-- C3: a transport error, a parse failure, and a missing or empty result
list each end the poll cycle at that page — no further page is fetched,
nothing more is processed — while `_updateLastContributionIdFromBatch`
still runs, committing `max` of the watermark and whatever
`_highestBatchContributionId` the batch had accumulated. -/
theorem terminating_event_commits (cfg : Config) (now : Int)
    (pages : Nat → FetchOutcome) (fuel page : Nat) (st : DetikState)
    (hp : pages page = .fetchError ∨ pages page = .parseError ∨
      pages page = .noResults) :
    fetchResults cfg now pages (fuel + 1) page st =
      ⟨updateLastContributionIdFromBatch st, [page], []⟩ ∧
    (fetchResults cfg now pages
        (fuel + 1) page st).state.lastContributionId =
      max st.lastContributionId st.highestBatchContributionId := by
  have he : fetchResults cfg now pages (fuel + 1) page st =
      ⟨updateLastContributionIdFromBatch st, [page], []⟩ := by
    rw [fetchResults]
    rcases hp with hp | hp | hp <;> rw [hp]
  refine ⟨he, ?_⟩
  rw [he]
  exact updateLast_last st

/-- C3 witness: a batch that accumulated `_highestBatchContributionId = 9`
over watermark 4 hits a parse error and still commits 9, fetching only the
failing page. -/
theorem terminating_event_commits_witness :
    ((fun _ : Nat => FetchOutcome.parseError) 3 = FetchOutcome.fetchError ∨
     (fun _ : Nat => FetchOutcome.parseError) 3 = FetchOutcome.parseError ∨
     (fun _ : Nat => FetchOutcome.parseError) 3 = FetchOutcome.noResults) ∧
    (fetchResults ⟨3600000⟩ 5000000 (fun _ => FetchOutcome.parseError)
        (2 + 1) 3 ⟨4, 9⟩ =
      ⟨updateLastContributionIdFromBatch ⟨4, 9⟩, [3], []⟩ ∧
     (fetchResults ⟨3600000⟩ 5000000 (fun _ => FetchOutcome.parseError)
        (2 + 1) 3 ⟨4, 9⟩).state.lastContributionId = max 4 9) :=
  ⟨Or.inr (Or.inl rfl),
    terminating_event_commits ⟨3600000⟩ 5000000
      (fun _ => FetchOutcome.parseError) 2 3 ⟨4, 9⟩ (Or.inr (Or.inl rfl))⟩

/-- C2: `_updateLastContributionIdFromBatch` commits
`max(lastContributionId, highestBatchContributionId)`; `_poll` starts the
batch counter at the watermark; the watermark never decreases across one
poll cycle nor across any sequence of poll cycles; and a cycle that
processes no item leaves the watermark unchanged. -/
theorem watermark_commit_max_monotone (cfg : Config) (now : Int)
    (pages : Nat → FetchOutcome) (fuel : Nat) (st : DetikState)
    (cs : List (Config × Int × (Nat → FetchOutcome) × Nat)) :
    (updateLastContributionIdFromBatch st).lastContributionId =
      max st.lastContributionId st.highestBatchContributionId ∧
    poll cfg now pages fuel st =
      fetchResults cfg now pages fuel 1
        ⟨st.lastContributionId, st.lastContributionId⟩ ∧
    st.lastContributionId ≤
      (poll cfg now pages fuel st).state.lastContributionId ∧
    ((poll cfg now pages fuel st).processed = [] →
      (poll cfg now pages fuel st).state.lastContributionId =
        st.lastContributionId) ∧
    st.lastContributionId ≤ (runCycles st cs).lastContributionId := by
  refine ⟨updateLast_last st, rfl, poll_last_le cfg now pages fuel st,
    ?_, runCycles_last_le st cs⟩
  intro hnil
  exact fetchResults_processed_nil cfg now pages fuel 1
    ⟨st.lastContributionId, st.lastContributionId⟩ rfl hnil

/-- C2 witness: a cycle over an all-empty feed from watermark 7 commits 7,
and two further cycles keep it at least 7. -/
theorem watermark_commit_max_monotone_witness :
    ((updateLastContributionIdFromBatch ⟨7, 3⟩).lastContributionId =
      max 7 3 ∧
     poll ⟨3600000⟩ 5000000 (fun _ => FetchOutcome.noResults) 2 ⟨7, 3⟩ =
       fetchResults ⟨3600000⟩ 5000000 (fun _ => FetchOutcome.noResults) 2 1
         ⟨7, 7⟩ ∧
     (7 : Int) ≤ (poll ⟨3600000⟩ 5000000 (fun _ => FetchOutcome.noResults) 2
       ⟨7, 3⟩).state.lastContributionId ∧
     ((poll ⟨3600000⟩ 5000000 (fun _ => FetchOutcome.noResults) 2
        ⟨7, 3⟩).processed = [] →
      (poll ⟨3600000⟩ 5000000 (fun _ => FetchOutcome.noResults) 2
        ⟨7, 3⟩).state.lastContributionId = 7) ∧
     (7 : Int) ≤ (runCycles ⟨7, 3⟩
       [(⟨3600000⟩, 5000000, fun _ => FetchOutcome.noResults, 2),
        (⟨3600000⟩, 6000000, fun _ =>
          FetchOutcome.fetchError, 2)]).lastContributionId) ∧
    (poll ⟨3600000⟩ 5000000 (fun _ => FetchOutcome.noResults) 2
      ⟨7, 3⟩).processed = [] :=
  ⟨watermark_commit_max_monotone ⟨3600000⟩ 5000000
      (fun _ => FetchOutcome.noResults) 2 ⟨7, 3⟩
      [(⟨3600000⟩, 5000000, fun _ => FetchOutcome.noResults, 2),
       (⟨3600000⟩, 6000000, fun _ => FetchOutcome.fetchError, 2)],
    by decide⟩

/-- C7: a result whose longitude and latitude are both zero is dropped by
`_saveResult`: it is never handed to `_insertConfirmed`, whatever its other
fields hold. -/
theorem zero_geo_never_forwarded (r : DetikResult)
    (hlon : r.longitude = 0) (hlat : r.latitude = 0) :
    saveResult r = none ∧ processResult r = none := by
  have h : ¬ (r.longitude ≠ 0 ∧ r.latitude ≠ 0) := by
    intro hc
    exact hc.1 hlon
  unfold processResult saveResult
  rw [if_neg h]
  exact ⟨rfl, rfl⟩

/-- C7 witness: a concrete `(0, 0)` result with nonempty payload fields is
dropped. -/
theorem zero_geo_never_forwarded_witness :
    (⟨5, 4999, 10, 0, 0, "u", "t", "c", some "p", "a"⟩ :
      DetikResult).longitude = 0 ∧
    (⟨5, 4999, 10, 0, 0, "u", "t", "c", some "p", "a"⟩ :
      DetikResult).latitude = 0 ∧
    (saveResult ⟨5, 4999, 10, 0, 0, "u", "t", "c", some "p", "a"⟩ = none ∧
     processResult ⟨5, 4999, 10, 0, 0, "u", "t", "c", some "p", "a"⟩ =
       none) :=
  ⟨rfl, rfl,
    zero_geo_never_forwarded
      ⟨5, 4999, 10, 0, 0, "u", "t", "c", some "p", "a"⟩ rfl rfl⟩

/-- C9: `_saveResult` forwards a result exactly when both coordinates are
nonzero; a single zero coordinate — longitude zero or latitude zero — is
already enough to drop it, strictly more than the `(0, 0)` sentinel. -/
theorem forwarded_iff_nonzero_geo (r : DetikResult) :
    (saveResult r = some r ↔ r.longitude ≠ 0 ∧ r.latitude ≠ 0) ∧
    (r.longitude = 0 → saveResult r = none) ∧
    (r.latitude = 0 → saveResult r = none) := by
  unfold saveResult
  by_cases h : r.longitude ≠ 0 ∧ r.latitude ≠ 0
  · rw [if_pos h]
    exact ⟨by simp [h], fun h0 => (h.1 h0).elim, fun h0 => (h.2 h0).elim⟩
  · rw [if_neg h]
    exact ⟨by simp [h], fun _ => rfl, fun _ => rfl⟩

/-- C9 witness: a point on the prime meridian, longitude 0 with latitude 5,
is dropped; a point with both coordinates nonzero is forwarded. -/
theorem forwarded_iff_nonzero_geo_witness :
    saveResult (sampleResult 5 4999 0 5) = none ∧
    saveResult (sampleResult 5 4999 3 5) = some (sampleResult 5 4999 3 5) :=
  ⟨(forwarded_iff_nonzero_geo (sampleResult 5 4999 0 5)).2.1 rfl,
    (forwarded_iff_nonzero_geo (sampleResult 5 4999 3 5)).1.mpr
      (by decide)⟩

end Detik
namespace Detik

/-- C6 counterexample: a fresh result with geo `(0, 0)` (contribution id 5)
is accepted by the filter and never forwarded — `_saveResult` drops it —
yet the poll cycle commits watermark 5: the watermark computation does use
an item that was not successfully forwarded. -/
theorem watermark_uses_dropped_item_cex :
    (poll ⟨3600000⟩ 5000000
      (fun n => if n = 1 then
        FetchOutcome.results [some (sampleResult 5 4999 0 0)]
      else FetchOutcome.noResults) 3 ⟨0, 0⟩).state.lastContributionId = 5 ∧
    (poll ⟨3600000⟩ 5000000
      (fun n => if n = 1 then
        FetchOutcome.results [some (sampleResult 5 4999 0 0)]
      else FetchOutcome.noResults) 3 ⟨0, 0⟩).processed =
      [sampleResult 5 4999 0 0] ∧
    saveResult (sampleResult 5 4999 0 0) = none := by
  decide

/-- C6 (amended): committing after a `_filterResults` run yields `max` of
the watermark and the running maximum over the contribution ids of all
results the filter accepted — independent of whether they were forwarded:
a geo-dropped item or one whose dispatch fails contributes all the same. -/
theorem watermark_from_accepted_ids (cfg : Config) (now : Int)
    (st : DetikState) (l : List (Option DetikResult)) :
    (updateLastContributionIdFromBatch
      (filterResults cfg now st l).state).lastContributionId =
      max st.lastContributionId
        (batchMax st.highestBatchContributionId
          (filterResults cfg now st l).processed) := by
  rw [updateLast_last, filterResults_state_highest, filterResults_processed,
    ← filterLoop_highest_eq, filterResults_state_last]
  split
  · rfl
  · omega

/-- C8: rerunning the filter on the same newest-first page, after the
first run's batch was committed, processes nothing the second time (the
second clock reading is not earlier than the first). -/
theorem second_run_processes_nothing (cfg : Config) (now1 now2 L0 : Int)
    (l : List DetikResult)
    (hsorted : l.Chain' (fun a b => b.contributionId < a.contributionId))
    (hnow : now1 ≤ now2) :
    (filterResults cfg now2
      ⟨commitAfter cfg now1 L0 (l.map some),
       commitAfter cfg now1 L0 (l.map some)⟩ (l.map some)).processed = [] := by
  cases l with
  | nil => rfl
  | cons r rest =>
    simp only [List.map_cons]
    have hL1 : commitAfter cfg now1 L0 (some r :: List.map some rest) =
        max (filterResults cfg now1 ⟨L0, L0⟩
            (some r :: List.map some rest)).state.lastContributionId
          (filterResults cfg now1 ⟨L0, L0⟩
            (some r :: List.map some rest)).state.highestBatchContributionId
        := by
      unfold commitAfter
      exact updateLast_last _
    have hlast : L0 ≤ (filterResults cfg now1 ⟨L0, L0⟩
        (some r :: List.map some rest)).state.lastContributionId :=
      filterResults_last_le cfg now1 ⟨L0, L0⟩ _
    by_cases hc : r.contributionId ≤ L0
    · refine filterResults_head_stop cfg now2 _ r _ (Or.inl ?_)
      show r.contributionId ≤ commitAfter cfg now1 L0
        (some r :: List.map some rest)
      rw [hL1]
      omega
    · by_cases hs : resultStale cfg now1 r
      · refine filterResults_head_stop cfg now2 _ r _ (Or.inr ?_)
        unfold resultStale at hs ⊢
        omega
      · have hfl : (filterLoop cfg now1 L0 L0
            (some r :: List.map some rest)).highest =
            (filterLoop cfg now1 L0
              (if L0 < r.contributionId then r.contributionId else L0)
              (List.map some rest)).highest := by
          simp only [filterLoop, if_neg hc, if_neg hs]
        have hge : r.contributionId ≤
            (filterLoop cfg now1 L0 L0
              (some r :: List.map some rest)).highest := by
          rw [hfl]
          refine le_trans ?_
            (filterLoop_highest_le cfg now1 L0 (List.map some rest) _)
          rw [if_pos (by omega)]
        have hsh := filterResults_state_highest cfg now1 ⟨L0, L0⟩
          (some r :: List.map some rest)
        have hhi : r.contributionId ≤ (filterResults cfg now1 ⟨L0, L0⟩
            (some r :: List.map some rest)).state.highestBatchContributionId
          := by
          rw [hsh]
          exact hge
        refine filterResults_head_stop cfg now2 _ r _ (Or.inl ?_)
        show r.contributionId ≤ commitAfter cfg now1 L0
          (some r :: List.map some rest)
        rw [hL1]
        omega

/-- C8 witness: a two-item newest-first page, ids 6 then 4, run at clock
4999000 and rerun at 5000000 after committing; the second run processes
nothing. -/
theorem second_run_processes_nothing_witness :
    ([sampleResult 6 4998 1 1, sampleResult 4 4997 1 1].Chain'
      (fun a b => b.contributionId < a.contributionId)) ∧
    (4999000 : Int) ≤ 5000000 ∧
    (filterResults ⟨3600000⟩ 5000000
      ⟨commitAfter ⟨3600000⟩ 4999000 0
        ([sampleResult 6 4998 1 1, sampleResult 4 4997 1 1].map some),
       commitAfter ⟨3600000⟩ 4999000 0
        ([sampleResult 6 4998 1 1, sampleResult 4 4997 1 1].map some)⟩
      ([sampleResult 6 4998 1 1, sampleResult 4 4997 1 1].map some)).processed
      = [] :=
  ⟨by rw [List.chain'_cons]; exact ⟨by decide, List.chain'_singleton _⟩,
    by decide,
    second_run_processes_nothing ⟨3600000⟩ 4999000 5000000 0
      [sampleResult 6 4998 1 1, sampleResult 4 4997 1 1]
      (by rw [List.chain'_cons]; exact ⟨by decide, List.chain'_singleton _⟩)
      (by decide)⟩

end Detik
